import Mathlib

/-!
Verification development for the camlistore read-only versioned FUSE layer
(pkg/fs/rover.go and pkg/fs/versions.go).

The Go code is shallowly embedded: each node type's mutable fields become an
explicit state record, each FUSE operation becomes a pure function from the
graph-query client and the node state to the new state, the operation result,
and the list of collaborator queries it issued.  `sync.Mutex` serialization is
modelled by the functions being sequential; diagnostic logging is dropped;
parent back-pointers (used only by the debugging helper `fullPath`) are
dropped.
-/

deriving instance DecidableEq for Except

namespace Camli

/-- Timestamps, as in Go `time.Time`, modelled as integers.  `0` plays the
role of Go's zero time (`IsZero`); nonzero values are real instants. -/
abbrev Time := Int

/-- `strings.HasPrefix`, on the character lists so that it evaluates inside
the kernel. -/
def strHasPre (p s : String) : Bool :=
  p.data.isPrefixOf s.data

/-- String slicing `s[n:]` (by character count). -/
def strDrop (s : String) (k : Nat) : String :=
  String.mk (s.data.drop k)

/-- `blob.Ref`: an opaque content-hash reference.  Modelled from the spec:
pkg/blob is outside the sources; the spec describes it as an opaque,
comparable content-hash identifier. -/
structure Ref where
  s : String
deriving DecidableEq, Repr

/-- Whether a string is a well-formed blob reference, i.e. `blob.Parse`
succeeds on it.  Modelled from the spec: the parser itself is outside the
sources; the claims only need a deterministic, decidable validity test with
both valid ("hashname-digest" shaped) and invalid instances. -/
def refOk (s : String) : Bool :=
  s.data.length > 0 && s.data.contains '-'

/-- `blob.Parse`: some ref on a well-formed string, none otherwise. -/
def parseRef (s : String) : Option Ref :=
  if refOk s then some ⟨s⟩ else none

/-- `blob.ParseOrZero`: the parsed ref, or the zero (invalid) ref. -/
def parseOrZero (s : String) : Ref :=
  if refOk s then ⟨s⟩ else ⟨""⟩

/-- `blob.Ref.Valid`: the zero ref is invalid. -/
def Ref.valid (r : Ref) : Bool := r.s != ""

/-- `blob.Ref.Sum64`: the deterministic 64-bit inode derivation from a ref.
Modelled from the spec: the concrete digest fold is outside the sources; the
spec requires only a pure, deterministic 64-bit function of the ref, so any
fixed executable hash represents it. -/
def sum64 (r : Ref) : Nat :=
  r.s.data.foldl (fun h c => (h * 131 + c.toNat) % 18446744073709551616)
    99194853094755497

/-- The fuse error values this layer returns. -/
inductive FuseErr
  | eio
  | eperm
  | enoent
deriving DecidableEq, Repr

/-- One `fuse.Dirent` as produced by the ReadDir implementations (only the
name and inode fields are ever set by this layer). -/
structure Dirent where
  name : String
  inode : Nat
deriving DecidableEq, Repr

/-- Go map read: first binding for the key, if any. -/
def mapGet {α : Type} : List (String × α) → String → Option α
  | [], _ => none
  | p :: rest, k => if p.1 == k then some p.2 else mapGet rest k

/-- Go map write: overwrite the existing binding or append a new one.  (The
bindings built here always have distinct keys, so replacing the first match
is the Go map update.) -/
def mapSet {α : Type} : List (String × α) → String → α → List (String × α)
  | [], k, v => [(k, v)]
  | p :: rest, k, v =>
    if p.1 == k then (k, v) :: rest else p :: mapSet rest k v

/-! ## The graph-query collaborator (pkg/search boundary) -/

/-- `search.DescribedPermanode`: the replayed attribute state, attribute name
to ordered values. -/
structure PermanodeMeta where
  attrs : List (String × List String)
deriving DecidableEq, Repr

/-- `Attr.Get`: first value for the attribute, or the empty string. -/
def PermanodeMeta.get (pm : PermanodeMeta) (k : String) : String :=
  match pm.attrs.find? (fun p => p.1 == k) with
  | some (_, v :: _) => v
  | _ => ""

/-- The slice of `search.DescribedBlob.File` this layer reads. -/
structure FileInfo where
  size : Int
deriving DecidableEq, Repr

/-- `search.DescribedBlob`: one resolved blob's metadata. -/
structure DescribedBlob where
  blobRef : Ref
  camliType : String
  permanode : Option PermanodeMeta
  file : FileInfo
deriving DecidableEq, Repr

/-- `search.DescribeRequest` (both the single-BlobRef and the batched
BlobRefs forms are modelled by the list). -/
structure DescribeRequest where
  blobRefs : List Ref
  depth : Nat
  atTime : Option Time
deriving DecidableEq, Repr

/-- `search.DescribeResponse`: Meta, a map from ref string to DescribedBlob. -/
structure DescribeResponse where
  meta : List (String × DescribedBlob)
deriving DecidableEq, Repr

/-- `res.Meta[k]`. -/
def metaGet (res : DescribeResponse) (k : String) : Option DescribedBlob :=
  mapGet res.meta k

/-- One `search.Claim` as used here: the claimed value and the claim date. -/
structure Claim where
  value : String
  date : Time
deriving DecidableEq, Repr

/-- `search.ClaimsResponse`. -/
structure ClaimsResponse where
  claims : List Claim
deriving DecidableEq, Repr

/-- `search.WithAttrRequest`. -/
structure WithAttrRequest where
  n : Nat
  attr : String
deriving DecidableEq, Repr

/-- One result item of an attribute search (`wi.Permanode`). -/
structure WithAttrItem where
  permanode : Ref
deriving DecidableEq, Repr

/-- `search.WithAttrResponse`. -/
structure WithAttrResponse where
  withAttr : List WithAttrItem
deriving DecidableEq, Repr

/-- A record of one collaborator query, used to state the call-count
properties of the spec. -/
inductive Query
  | qDescribe (req : DescribeRequest)
  | qClaims (permanode : Ref) (attrName : String)
  | qWithAttr (req : WithAttrRequest)
deriving DecidableEq, Repr

/-- The GraphQueryClient boundary: a test-double of the three calls this
layer issues.  Each call either errors (Go non-nil error) or returns its
response. -/
structure Client where
  describe : DescribeRequest → Except String DescribeResponse
  getClaims : Ref → String → Except String ClaimsResponse
  withAttr : WithAttrRequest → Except String WithAttrResponse

/-- `cl.Date.String()`: the rendered claim timestamp used as the entry name.
Modelled from the spec: Go's time rendering is outside the sources; the spec
requires only a sortable, uniquely-rendered string, so the integer rendering
represents it. -/
def renderTime (t : Time) : String := toString t

/-! ## rover.go: roDirV / roFileLikeDir / roFileVersion -/

/-- The mutable fields of one `roFileVersion` (rover.go).  The parent
back-pointer is dropped (debugging only). -/
structure RoFileVersionData where
  permanode : Ref
  name : String
  content : Ref
  size : Int
  mtime : Time
  atime : Time
  symLink : Bool
deriving DecidableEq, Repr

/-- The closed set of child node shapes stored in a children map
(`roFileOrDir` values as they occur in rover.go): a `roDirV`, a
`roFileLikeDir` (plain or symlink), or a `roFileVersion`. -/
inductive RoFileOrDir
  | dirV (permanode : Ref) (name : String)
  | fileLikeDir (permanode : Ref) (name : String) (symLink : Bool) (target : String)
  | fileVersion (v : RoFileVersionData)
deriving DecidableEq, Repr

/-- The mutable fields of one `roDirV`: its permanode, name, and the
memoized children map (`none` = Go nil map, never populated). -/
structure RoDirVState where
  permanode : Ref
  name : String
  children : Option (List (String × RoFileOrDir))
deriving DecidableEq, Repr

/-- `isDir`: whether a described permanode is directory-shaped.  Modelled
from the spec: the helper lives outside the sources (ro.go); the spec says
"the child is itself a directory-shaped permanode". -/
def isDir (pm : PermanodeMeta) : Bool :=
  pm.get "camliNodeType" == "directory"

/-- The body of roDirV.populate's per-attribute child resolution (rover.go
lines 116-160): given the depth-3 describe response, classify one
`camliPath:` target.  `none` means the loop `continue`s (child skipped).
A described blob with no permanode record would make the Go code dereference
a nil pointer; the model reads it as an empty attribute set, which no claim
exercises. -/
def roDirVChildFor (res : DescribeResponse) (name : String) (childRef : String) :
    Option RoFileOrDir :=
  match metaGet res childRef with
  | none => none
  | some child =>
    let pm := child.permanode.getD ⟨[]⟩
    let target := pm.get "camliSymlinkTarget"
    if target != "" then
      some (.fileLikeDir (parseOrZero childRef) name true target)
    else if isDir pm then
      some (.dirV (parseOrZero childRef) name)
    else
      let contentRef := pm.get "camliContent"
      if contentRef != "" then
        match metaGet res contentRef with
        | none => none
        | some content =>
          if content.camliType == "file" then
            some (.fileLikeDir (parseOrZero childRef) name false "")
          else none
      else none

/-- roDirV.populate's attribute loop (rover.go lines 109-161): fold the
permanode's attributes into the children map, skipping non-`camliPath:`
keys, empty value lists, and unresolvable children. -/
def roDirVBuild (res : DescribeResponse) :
    List (String × List String) → List (String × RoFileOrDir) →
    List (String × RoFileOrDir)
  | [], acc => acc
  | (k, vs) :: rest, acc =>
    match vs with
    | [] => roDirVBuild res rest acc
    | childRef :: _ =>
      if strHasPre "camliPath:" k then
        let name := strDrop k 10
        match roDirVChildFor res name childRef with
        | some ch => roDirVBuild res rest (mapSet acc name ch)
        | none => roDirVBuild res rest acc
      else
        roDirVBuild res rest acc

/-- `roDirV.populate` (rover.go lines 82-163).  Returns the new state, the
Go error (`none` = nil), and the queries issued.  Note the source returns
nil — not the error — when the depth-3 Describe itself fails. -/
def roDirVPopulate (c : Client) (n : RoDirVState) :
    RoDirVState × Option String × List Query :=
  match n.children with
  | some _ => (n, none, [])
  | none =>
    let req : DescribeRequest := ⟨[n.permanode], 3, none⟩
    match c.describe req with
    | .error _ => (n, none, [.qDescribe req])
    | .ok res =>
      match metaGet res n.permanode.s with
      | none => (n, some "dir blobref not described", [.qDescribe req])
      | some db =>
        let ch := roDirVBuild res (db.permanode.getD ⟨[]⟩).attrs []
        ({ n with children := some ch }, none, [.qDescribe req])

/-- The inode selection of the ReadDir type switch (rover.go lines 174-182):
`*roDirV` and `*roFileVersion` yield their own permanode hash; every other
dynamic type — in particular `*roFileLikeDir` — falls into the default
branch and leaves `ino` at zero. -/
def direntInode : RoFileOrDir → Nat
  | .dirV p _ => sum64 p
  | .fileVersion v => sum64 v.permanode
  | .fileLikeDir _ _ _ _ => 0

/-- `roDirV.ReadDir` (rover.go lines 165-194). -/
def roDirVReadDir (c : Client) (n : RoDirVState) :
    RoDirVState × Except FuseErr (List Dirent) × List Query :=
  match roDirVPopulate c n with
  | (n2, some _, qs) => (n2, .error .eio, qs)
  | (n2, none, qs) =>
    (n2, .ok ((n2.children.getD []).map (fun p => ⟨p.1, direntInode p.2⟩)), qs)

/-- `roDirV.Lookup` (rover.go lines 196-210). -/
def roDirVLookup (c : Client) (n : RoDirVState) (nm : String) :
    RoDirVState × Except FuseErr RoFileOrDir × List Query :=
  match roDirVPopulate c n with
  | (n2, some _, qs) => (n2, .error .eio, qs)
  | (n2, none, qs) =>
    match mapGet (n2.children.getD []) nm with
    | some ch => (n2, .ok ch, qs)
    | none => (n2, .error .enoent, qs)

/-- `roDirV.Attr` (rover.go lines 72-79): directory, mode 0500, inode from
the node's own permanode. -/
structure FuseAttr where
  inode : Nat
  modeDir : Bool
  modeSymlink : Bool
  perm : Nat
  size : Int
  blocks : Nat
  mtime : Time
  atime : Time
  ctime : Time
  crtime : Time
deriving DecidableEq, Repr

/-- The mutable fields of one `roFileLikeDir` (rover.go lines 216-228). -/
structure RoFileLikeDirState where
  permanode : Ref
  name : String
  symLink : Bool
  target : String
  children : Option (List (String × RoFileOrDir))
deriving DecidableEq, Repr

/-- `roFileLikeDir.Attr` (rover.go lines 246-253). -/
def roFileLikeDirAttr (n : RoFileLikeDirState) : FuseAttr :=
  { inode := sum64 n.permanode
    modeDir := true
    modeSymlink := false
    perm := 0o500
    size := 0
    blocks := 0
    mtime := 0
    atime := 0
    ctime := 0
    crtime := 0 }

/-- The claim loop of roFileLikeDir.populate (rover.go lines 275-303).
`acc` is the children map built so far — the Go code mutates `n.children`
in place, so on every early return the entries inserted so far stay
committed.  Returns the map as left at exit, the Go error returned, and the
describes issued.  Note the source returns nil — not the error — when the
time-pinned depth-1 Describe fails mid-loop. -/
def roFileLikeDirLoop (c : Client) (pn : Ref) :
    List Claim → List (String × RoFileOrDir) →
    List (String × RoFileOrDir) × Option String × List Query
  | [], acc => (acc, none, [])
  | cl :: rest, acc =>
    match parseRef cl.value with
    | none => (acc, some "invalid blobref", [])
    | some cpn =>
      let req : DescribeRequest := ⟨[cpn], 1, some cl.date⟩
      match c.describe req with
      | .error _ => (acc, none, [.qDescribe req])
      | .ok res =>
        match metaGet res cl.value with
        | none => (acc, some "dir blobref not described", [.qDescribe req])
        | some db =>
          let nm := renderTime cl.date
          let child : RoFileOrDir :=
            .fileVersion ⟨pn, nm, db.blobRef, db.file.size, 0, 0, false⟩
          match roFileLikeDirLoop c pn rest (mapSet acc nm child) with
          | (m, e, qs) => (m, e, .qDescribe req :: qs)

/-- `roFileLikeDir.populate` (rover.go lines 256-305).  The children map is
created (set non-nil) before the claim loop runs, so a loop failure still
commits the partially built map. -/
def roFileLikeDirPopulate (c : Client) (n : RoFileLikeDirState) :
    RoFileLikeDirState × Option String × List Query :=
  match n.children with
  | some _ => (n, none, [])
  | none =>
    let qc : Query := .qClaims n.permanode "camliContent"
    match c.getClaims n.permanode "camliContent" with
    | .error _ => (n, some "fs.roFileLikeDir: GetClaims error in ReadDir:", [qc])
    | .ok res =>
      match roFileLikeDirLoop c n.permanode res.claims [] with
      | (m, e, qs) => ({ n with children := some m }, e, qc :: qs)

/-- `roFileLikeDir.ReadDir` (rover.go lines 307-336); same dirent/inode
construction as roDirV.ReadDir. -/
def roFileLikeDirReadDir (c : Client) (n : RoFileLikeDirState) :
    RoFileLikeDirState × Except FuseErr (List Dirent) × List Query :=
  match roFileLikeDirPopulate c n with
  | (n2, some _, qs) => (n2, .error .eio, qs)
  | (n2, none, qs) =>
    (n2, .ok ((n2.children.getD []).map (fun p => ⟨p.1, direntInode p.2⟩)), qs)

/-- `roFileLikeDir.Lookup` (rover.go lines 338-352). -/
def roFileLikeDirLookup (c : Client) (n : RoFileLikeDirState) (nm : String) :
    RoFileLikeDirState × Except FuseErr RoFileOrDir × List Query :=
  match roFileLikeDirPopulate c n with
  | (n2, some _, qs) => (n2, .error .eio, qs)
  | (n2, none, qs) =>
    match mapGet (n2.children.getD []) nm with
    | some ch => (n2, .ok ch, qs)
    | none => (n2, .error .enoent, qs)

/-- `serverStart`: the fixed process-start fallback instant.  Modelled from
the spec: the global lives outside the sources (fs.go); any fixed nonzero
instant represents it. -/
def serverStart : Time := 1000000

/-- `roFileVersion.modTime` (rover.go lines 478-485). -/
def modTime (n : RoFileVersionData) : Time :=
  if n.mtime != 0 then n.mtime else serverStart

/-- `roFileVersion.accessTime` (rover.go lines 468-476). -/
def accessTime (n : RoFileVersionData) : Time :=
  if n.atime != 0 then n.atime else modTime n

/-- `roFileVersion.Attr` (rover.go lines 438-466). -/
def roFileVersionAttr (n : RoFileVersionData) : FuseAttr :=
  { inode := sum64 n.permanode
    modeDir := false
    modeSymlink := n.symLink
    perm := 0o400
    size := n.size
    blocks := if n.size > 0 then n.size.toNat / 512 + 1 else 0
    mtime := modTime n
    atime := accessTime n
    ctime := serverStart
    crtime := serverStart }

/-- `isWriteFlags`: whether open flags indicate write intent.  Modelled from
the spec: the helper lives outside the sources; per the spec and the
source's comment, write intent is an access mode other than read-only
(O_WRONLY = 1 or O_RDWR = 2 set in the low bits). -/
def isWriteFlags (flags : Nat) : Bool :=
  flags % 4 != 0

/-- `roFileVersion.Open` (rover.go lines 379-404).  The content-reader
collaborator (`schema.NewFileReader`) is modelled as a predicate saying
whether a reader for the ref can be constructed; on success the handle is
the bound content ref. -/
def roFileVersionOpen (readerOk : Ref → Bool) (n : RoFileVersionData)
    (flags : Nat) : Except FuseErr Ref :=
  if isWriteFlags flags then .error .eperm
  else if readerOk n.content then .ok n.content
  else .error .eio

/-- `roFileVersion.Removexattr` (rover.go lines 422-424). -/
def roFileVersionRemovexattr : FuseErr := .eperm

/-- `roFileVersion.Setxattr` (rover.go lines 426-428). -/
def roFileVersionSetxattr : FuseErr := .eperm

/-- `roFileVersion.Fsync` (rover.go lines 487-490): always succeeds. -/
def roFileVersionFsync : Option FuseErr := none

/-! ## versions.go: versionsDir -/

/-- `versionsRefreshTime`: one minute, in the same unit as `Time`. -/
def versionsRefreshTime : Time := 60

/-- One memoized child of the versions directory (a `roDirV` node object).
`id` models Go pointer identity: `versionsDir.Lookup` allocates a fresh
object on a cache miss, so each construction gets the state's next counter
value. -/
structure DirNode where
  id : Nat
  permanode : Ref
  name : String
deriving DecidableEq, Repr

/-- The mutable fields of `versionsDir` (versions.go lines 37-47), plus the
allocation counter for `DirNode.id`.  `children = none` models the Go nil
map before the first refresh initializes it. -/
structure VersionsDirState where
  lastQuery : Time
  m : List (String × Ref)
  children : Option (List (String × DirNode))
  nextId : Nat
deriving DecidableEq, Repr

/-- The roots loop of condRefresh (versions.go lines 153-165): walk the
camliRoot search results, and for every described permanode with a nonempty
`camliRoot` attribute record the name both in the kept-set (`currentRoots`)
and in the name-to-permanode map. -/
def rootsLoop (dres : DescribeResponse) :
    List WithAttrItem → List (String × Ref) → List String →
    List (String × Ref) × List String
  | [], m, cr => (m, cr)
  | wi :: rest, m, cr =>
    match metaGet dres wi.permanode.s with
    | none => rootsLoop dres rest m cr
    | some db =>
      match db.permanode with
      | none => rootsLoop dres rest m cr
      | some pm =>
        let nm := pm.get "camliRoot"
        if nm == "" then rootsLoop dres rest m cr
        else rootsLoop dres rest (mapSet m nm wi.permanode) (nm :: cr)

/-- The import-root sanitization (versions.go lines 182-183): `:` and `/`
replaced by `-` (single-character replacements, so a character map is
exact). -/
def sanitize (s : String) : String :=
  String.mk (s.data.map (fun c => if c == ':' || c == '/' then '-' else c))

/-- The importers loop of condRefresh (versions.go lines 176-187): walk the
camliImportRoot search results and map each found name, sanitized and
prefixed with "importer-", to its permanode.  Nothing is added to the
kept-set here. -/
def importersLoop (dres : DescribeResponse) :
    List WithAttrItem → List (String × Ref) → List (String × Ref)
  | [], m => m
  | wi :: rest, m =>
    match metaGet dres wi.permanode.s with
    | none => importersLoop dres rest m
    | some db =>
      match db.permanode with
      | none => importersLoop dres rest m
      | some pm =>
        let nm := pm.get "camliImportRoot"
        if nm == "" then importersLoop dres rest m
        else importersLoop dres rest (mapSet m ("importer-" ++ sanitize nm) wi.permanode)

/-- The two attribute-search requests condRefresh issues. -/
def rootReq : WithAttrRequest := ⟨100, "camliRoot"⟩

/-- The camliImportRoot search request. -/
def importReq : WithAttrRequest := ⟨100, "camliImportRoot"⟩

/-- `versionsDir.condRefresh` (versions.go lines 108-191), with `time.Now()`
passed in as `now`.  The two searches run in a fan-out/join whose first
error aborts; sequentializing them (root result inspected first) is
observationally equal, since on any error the state is returned untouched
and the result is EIO either way.  Faithful details: `n.m` is reset and the
children map initialized *before* the batch Describe, the zero-result path
returns success early (before eviction and before the timestamp update),
and `lastQuery` is set only at the very end. -/
def condRefresh (c : Client) (now : Time) (st : VersionsDirState) :
    VersionsDirState × Option FuseErr × List Query :=
  if st.lastQuery > now - versionsRefreshTime then (st, none, [])
  else
    let qs0 : List Query := [.qWithAttr rootReq, .qWithAttr importReq]
    match c.withAttr rootReq, c.withAttr importReq with
    | .error _, _ => (st, some .eio, qs0)
    | .ok _, .error _ => (st, some .eio, qs0)
    | .ok rootRes, .ok impRes =>
      let st1 : VersionsDirState :=
        { st with m := [], children := some (st.children.getD []) }
      let refs := rootRes.withAttr.map (fun wi => wi.permanode) ++
        impRes.withAttr.map (fun wi => wi.permanode)
      if refs.isEmpty then (st1, none, qs0)
      else
        let dq : DescribeRequest := ⟨refs, 1, none⟩
        match c.describe dq with
        | .error _ => (st1, some .eio, qs0 ++ [.qDescribe dq])
        | .ok dres =>
          match rootsLoop dres rootRes.withAttr [] [] with
          | (m1, currentRoots) =>
            let ch1 := (st1.children.getD []).filter
              (fun p => currentRoots.contains p.1)
            let m2 := importersLoop dres impRes.withAttr m1
            ({ lastQuery := now, m := m2, children := some ch1,
               nextId := st.nextId }, none, qs0 ++ [.qDescribe dq])

/-- `versionsDir.ReadDir` (versions.go lines 68-80): refresh, then one
dirent per name in the map (the source sets no inode, so it stays zero). -/
def versionsReadDir (c : Client) (now : Time) (st : VersionsDirState) :
    VersionsDirState × Except FuseErr (List Dirent) × List Query :=
  match condRefresh c now st with
  | (st1, some _, qs) => (st1, .error .eio, qs)
  | (st1, none, qs) => (st1, .ok (st1.m.map (fun p => ⟨p.1, 0⟩)), qs)

/-- `versionsDir.Lookup` (versions.go lines 82-105): refresh, consult the
name map, then return the memoized child or construct and memoize a fresh
`roDirV` node. -/
def versionsLookup (c : Client) (now : Time) (st : VersionsDirState)
    (nm : String) :
    VersionsDirState × Except FuseErr DirNode × List Query :=
  match condRefresh c now st with
  | (st1, some e, qs) => (st1, .error e, qs)
  | (st1, none, qs) =>
    let br := (mapGet st1.m nm).getD ⟨""⟩
    if !br.valid then (st1, .error .enoent, qs)
    else
      match mapGet (st1.children.getD []) nm with
      | some nod => (st1, .ok nod, qs)
      | none =>
        let nod : DirNode := ⟨st1.nextId, br, nm⟩
        let ch2 := mapSet (st1.children.getD []) nm nod
        ({ st1 with children := some ch2, nextId := st1.nextId + 1 }, .ok nod, qs)

/-- Count of attribute-search queries in a query log (the "pair of search
queries" of the spec's call-count property). -/
def searchCount (qs : List Query) : Nat :=
  (qs.filter (fun q => match q with | .qWithAttr _ => true | _ => false)).length

/-! ## The four node variants and their mutation entry points -/

/-- The closed set of the four namespace node variants of the spec
(RootsDirectory, StaticEntryDirectory, VersionedFileDirectory,
FileVersionNode). -/
inductive NodeVariant
  | rootsDir (st : VersionsDirState)
  | staticDir (st : RoDirVState)
  | versionedFileDir (st : RoFileLikeDirState)
  | fileVersion (st : RoFileVersionData)

/-- A mutation attempt at the node protocol: set or remove an extended
attribute, or open with the given flags. -/
inductive MutationOp
  | setx
  | removex
  | openFlags (flags : Nat)

/-- `noXattr` mutation entry points (xattr.go, outside the sources).
Modelled from the spec: mutation entry points of the shared extended
attribute accessor always fail with permission-denied. -/
def noXattrMutate : FuseErr := .eperm

/-- Write-intent open on the directory variants, which define no Open
handler in the sources.  Modelled from the spec: any mutation attempt
(including a write-intent open) on any node is permission-denied. -/
def dirWriteOpen : Except FuseErr Ref := .error .eperm

/-- Setxattr/Removexattr on roDirV and roFileLikeDir, which define no such
handler in the sources.  Modelled from the spec: mutation entry points fail
with permission-denied uniformly across all four node variants. -/
def roDirMutateXattr : FuseErr := .eperm

/-- The mutation outcome for each variant and mutation operation, assembled
from the per-variant entry points above (`readerOk` is the content-reader
collaborator used only on the FileVersionNode open path). -/
def mutationResult (readerOk : Ref → Bool) :
    NodeVariant → MutationOp → Except FuseErr Ref
  | .rootsDir _, .setx => .error noXattrMutate
  | .rootsDir _, .removex => .error noXattrMutate
  | .rootsDir _, .openFlags _ => dirWriteOpen
  | .staticDir _, .setx => .error roDirMutateXattr
  | .staticDir _, .removex => .error roDirMutateXattr
  | .staticDir _, .openFlags _ => dirWriteOpen
  | .versionedFileDir _, .setx => .error roDirMutateXattr
  | .versionedFileDir _, .removex => .error roDirMutateXattr
  | .versionedFileDir _, .openFlags _ => dirWriteOpen
  | .fileVersion _, .setx => .error roFileVersionSetxattr
  | .fileVersion _, .removex => .error roFileVersionRemovexattr
  | .fileVersion st, .openFlags flags => roFileVersionOpen readerOk st flags

/-! ## Association-map lemmas -/

theorem mapGet_mapSet {α : Type} (m : List (String × α)) (k k2 : String) (v : α) :
    mapGet (mapSet m k v) k2 = if k2 = k then some v else mapGet m k2 := by
  induction m with
  | nil =>
    by_cases h : k2 = k
    · simp [mapGet, mapSet, h]
    · simp [mapGet, mapSet, h, Ne.symm h]
  | cons q rest ih =>
    by_cases hq : q.1 = k
    · by_cases h : k2 = k
      · simp [mapGet, mapSet, hq, h]
      · simp [mapGet, mapSet, hq, h, Ne.symm h]
    · by_cases h : k2 = k
      · subst h
        simp [mapGet, mapSet, hq, ih]
      · simp [mapGet, mapSet, hq, h, ih]

theorem mem_mapSet {α : Type} (m : List (String × α)) (k : String) (v : α) :
    ∀ p ∈ mapSet m k v, p = (k, v) ∨ p ∈ m := by
  induction m with
  | nil => simp [mapSet]
  | cons q rest ih =>
    intro p hp
    by_cases hq : q.1 = k
    · simp only [mapSet, hq, beq_self_eq_true, if_pos] at hp
      rcases List.mem_cons.mp hp with h | h
      · exact Or.inl h
      · exact Or.inr (List.mem_cons_of_mem _ h)
    · rw [mapSet, if_neg (by simpa using hq)] at hp
      rcases List.mem_cons.mp hp with h | h
      · exact Or.inr (h ▸ List.mem_cons_self _ _)
      · rcases ih p h with h2 | h2
        · exact Or.inl h2
        · exact Or.inr (List.mem_cons_of_mem _ h2)

theorem mapGet_mem {α : Type} {m : List (String × α)} {k : String} {v : α}
    (h : mapGet m k = some v) : (k, v) ∈ m := by
  induction m with
  | nil => simp [mapGet] at h
  | cons q rest ih =>
    by_cases hq : q.1 = k
    · rw [mapGet, if_pos (by simpa using hq)] at h
      cases h
      exact hq ▸ List.mem_cons_self _ _
    · rw [mapGet, if_neg (by simpa using hq)] at h
      exact List.mem_cons_of_mem _ (ih h)

theorem mapGet_filter_none {α : Type} (m : List (String × α)) (q : String → Bool)
    (k : String) (hq : q k = false) :
    mapGet (m.filter (fun p => q p.1)) k = none := by
  induction m with
  | nil => simp [mapGet]
  | cons p rest ih =>
    by_cases hp : q p.1
    · have hpk : (p.1 == k) = false := by
        by_cases h : p.1 = k
        · rw [h] at hp; rw [hp] at hq; cases hq
        · simpa using h
      rw [List.filter_cons_of_pos (by simpa using hp), mapGet, hpk, if_neg (by simp)]
      exact ih
    · rw [List.filter_cons_of_neg (by simpa using hp)]
      exact ih

/-! ## Concrete fixtures used by witnesses and counterexamples -/

/-- A collaborator whose every call fails. -/
def badClient : Client :=
  { describe := fun _ => .error "boom"
    getClaims := fun _ _ => .error "boom"
    withAttr := fun _ => .error "boom" }

/-- A fresh (never populated) static-entry directory node. -/
def roDirVFix : RoDirVState := ⟨⟨"sha1-d"⟩, "d", none⟩

/-- A fresh (never populated) versioned-file directory node. -/
def fldFix : RoFileLikeDirState := ⟨⟨"sha1-f"⟩, "f", false, "", none⟩

/-- A file-version node as populate builds them. -/
def fvFix : RoFileVersionData := ⟨⟨"sha1-f"⟩, "5", ⟨"sha1-v1"⟩, 10, 0, 0, false⟩

/-- A fresh roots-directory state. -/
def vdFix : VersionsDirState := ⟨0, [], none, 0⟩

/-- Depth-3 describe response for `roDirVFix`: one `camliPath:a` attribute
whose target `sha1-x` is a file permanode with content `sha1-c`. -/
def fileChildMeta : DescribeResponse := ⟨[
  ("sha1-d", ⟨⟨"sha1-d"⟩, "permanode", some ⟨[("camliPath:a", ["sha1-x"])]⟩, ⟨0⟩⟩),
  ("sha1-x", ⟨⟨"sha1-x"⟩, "permanode", some ⟨[("camliContent", ["sha1-c"])]⟩, ⟨0⟩⟩),
  ("sha1-c", ⟨⟨"sha1-c"⟩, "file", none, ⟨10⟩⟩)]⟩

/-- A collaborator answering every describe with `fileChildMeta`. -/
def fileChildClient : Client :=
  { describe := fun _ => .ok fileChildMeta
    getClaims := fun _ _ => .error "unused"
    withAttr := fun _ => .error "unused" }

/-- Depth-1 describe response resolving version content `sha1-v1`. -/
def versionMeta : DescribeResponse :=
  ⟨[("sha1-v1", ⟨⟨"sha1-v1"⟩, "file", none, ⟨10⟩⟩)]⟩

/-- Claim history with one resolvable claim (date 5) and one claim whose
value is not a parseable ref (date 7). -/
def twoClaimsBadSecond : ClaimsResponse := ⟨[⟨"sha1-v1", 5⟩, ⟨"bad", 7⟩]⟩

/-- Collaborator for the partial-commit scenario: claim history
`twoClaimsBadSecond`, all describes resolve `sha1-v1`. -/
def partialClient : Client :=
  { describe := fun _ => .ok versionMeta
    getClaims := fun _ _ => .ok twoClaimsBadSecond
    withAttr := fun _ => .error "unused" }

/-- Collaborator whose time-pinned describe fails for the second claim
(date 7) only; both claim values are parseable. -/
def describeFailClient : Client :=
  { describe := fun req => if req.atTime == some 7 then .error "boom" else .ok versionMeta
    getClaims := fun _ _ => .ok ⟨[⟨"sha1-v1", 5⟩, ⟨"sha1-v2", 7⟩]⟩
    withAttr := fun _ => .error "unused" }

/-- Collaborator with a single resolvable claim at date 5. -/
def oneClaimClient : Client :=
  { describe := fun _ => .ok versionMeta
    getClaims := fun _ _ => .ok ⟨[⟨"sha1-v1", 5⟩]⟩
    withAttr := fun _ => .error "unused" }

/-- Invariant transport through the claim loop: any property holding of
every already-inserted child and of every version node the loop constructs
holds of every child of the final map. -/
theorem roFileLikeDirLoop_mem (c : Client) (pn : Ref) (P : RoFileOrDir → Prop)
    (hP : ∀ nm cont sz, P (.fileVersion ⟨pn, nm, cont, sz, 0, 0, false⟩)) :
    ∀ (cls : List Claim) (acc : List (String × RoFileOrDir)),
      (∀ p ∈ acc, P p.2) →
      ∀ p ∈ (roFileLikeDirLoop c pn cls acc).1, P p.2 := by
  intro cls
  induction cls with
  | nil =>
    intro acc hacc
    simpa [roFileLikeDirLoop] using hacc
  | cons cl rest ih =>
    intro acc hacc p hp
    simp only [roFileLikeDirLoop] at hp
    cases hpr : parseRef cl.value with
    | none =>
      rw [hpr] at hp
      exact hacc p hp
    | some cpn =>
      rw [hpr] at hp
      simp only at hp
      cases hd : c.describe ⟨[cpn], 1, some cl.date⟩ with
      | error msg =>
        rw [hd] at hp
        exact hacc p hp
      | ok res =>
        rw [hd] at hp
        simp only at hp
        cases hm : metaGet res cl.value with
        | none =>
          rw [hm] at hp
          exact hacc p hp
        | some db =>
          rw [hm] at hp
          simp only at hp
          rcases hl : roFileLikeDirLoop c pn rest
              (mapSet acc (renderTime cl.date)
                (.fileVersion
                  ⟨pn, renderTime cl.date, db.blobRef, db.file.size, 0, 0, false⟩))
            with ⟨m, e, qs⟩
          rw [hl] at hp
          simp only at hp
          refine ih _ ?_ p (by rw [hl]; exact hp)
          intro q hq
          rcases mem_mapSet _ _ _ q hq with h2 | h2
          · rw [h2]
            exact hP _ _ _
          · exact hacc q h2

/-! ## C2 -/

/-- C2, counterexample: on a StaticEntryDirectory whose depth-3 Describe
query fails, ReadDir does NOT return an I/O failure — populate logs and
swallows the error, so ReadDir returns success with an empty listing and
Lookup returns not-found; the claim's error-propagation assertion is false
on the code. -/
theorem roDirV_describe_error_cex :
    (roDirVReadDir badClient roDirVFix).2.1 = .ok [] ∧
    (roDirVReadDir badClient roDirVFix).2.1 ≠ .error .eio ∧
    (roDirVLookup badClient roDirVFix "any").2.1 = .error .enoent ∧
    (roDirVLookup badClient roDirVFix "any").2.1 ≠ .error .eio ∧
    (roDirVReadDir badClient roDirVFix).1.children = none := by
  decide

/-- C2, amended: when the depth-3 Describe query of an unpopulated
StaticEntryDirectory fails, populate suppresses the error, so ReadDir
returns success with an empty listing and Lookup returns not-found; the
children map is not created (the node state is returned unchanged), and
every such call re-issues exactly the one Describe query, so the directory
remains retryable. -/
theorem roDirV_describe_error_amended (c : Client) (n : RoDirVState)
    (nm msg : String) (h : n.children = none)
    (he : c.describe ⟨[n.permanode], 3, none⟩ = .error msg) :
    roDirVReadDir c n = (n, .ok [], [.qDescribe ⟨[n.permanode], 3, none⟩]) ∧
    roDirVLookup c n nm = (n, .error .enoent, [.qDescribe ⟨[n.permanode], 3, none⟩]) := by
  have hp : roDirVPopulate c n = (n, none, [.qDescribe ⟨[n.permanode], 3, none⟩]) := by
    simp [roDirVPopulate, h, he]
  refine ⟨?_, ?_⟩
  · rw [roDirVReadDir, hp]
    simp [h]
  · rw [roDirVLookup, hp]
    simp [h, mapGet]

/-- C2, witness for the amended theorem at a concrete input. -/
theorem roDirV_describe_error_amended_witness :
    roDirVReadDir badClient roDirVFix =
      (roDirVFix, .ok [], [.qDescribe ⟨[⟨"sha1-d"⟩], 3, none⟩]) ∧
    roDirVLookup badClient roDirVFix "any" =
      (roDirVFix, .error .enoent, [.qDescribe ⟨[⟨"sha1-d"⟩], 3, none⟩]) :=
  roDirV_describe_error_amended badClient roDirVFix "any" "boom" rfl rfl

/-! ## C3 -/

/-- C3: code bug.  For a StaticEntryDirectory child backed by a
`roFileLikeDir` (a versioned-file directory or symlink child), ReadDir's
type switch has no case — the child falls into the default branch (which
logs "unknown child type") and the reported inode stays 0, instead of the
child's own ref hash as the spec states.  Evaluated at the failing input: a
permanode with `camliPath:a -> sha1-x` where `sha1-x` is a file permanode,
ReadDir reports inode 0 for `a` although the hash of `sha1-x` is nonzero. -/
theorem roDirV_readDir_file_child_inode_zero :
    (roDirVReadDir fileChildClient roDirVFix).2.1 = .ok [⟨"a", 0⟩] ∧
    sum64 ⟨"sha1-x"⟩ ≠ 0 ∧
    (roDirVReadDir fileChildClient roDirVFix).1.children =
      some [("a", .fileLikeDir ⟨"sha1-x"⟩ "a" false "")] := by
  decide

/-! ## C7 -/

/-- C7: every mutation attempt — Setxattr, Removexattr, or an Open whose
flags indicate write intent — on a node of any of the four variants returns
permission-denied, regardless of the node's state and of the content-reader
collaborator. -/
theorem mutation_attempts_eperm (readerOk : Ref → Bool) (v : NodeVariant)
    (op : MutationOp)
    (hw : ∀ flags, op = .openFlags flags → isWriteFlags flags = true) :
    mutationResult readerOk v op = .error .eperm := by
  cases v with
  | rootsDir st =>
    cases op with
    | setx => rfl
    | removex => rfl
    | openFlags f => rfl
  | staticDir st =>
    cases op with
    | setx => rfl
    | removex => rfl
    | openFlags f => rfl
  | versionedFileDir st =>
    cases op with
    | setx => rfl
    | removex => rfl
    | openFlags f => rfl
  | fileVersion st =>
    cases op with
    | setx => rfl
    | removex => rfl
    | openFlags f =>
      have hf := hw f rfl
      simp [mutationResult, roFileVersionOpen, hf]

/-! ## condRefresh characterization lemmas -/

/-- Within the time-to-live window, condRefresh is a no-op. -/
theorem condRefresh_noop (c : Client) (now : Time) (st : VersionsDirState)
    (h : st.lastQuery > now - versionsRefreshTime) :
    condRefresh c now st = (st, none, []) := by
  rw [condRefresh, if_pos h]

/-- Within the time-to-live window, ReadDir lists the memoized map and
issues no queries. -/
theorem versionsReadDir_noop (c : Client) (now : Time) (st : VersionsDirState)
    (h : st.lastQuery > now - versionsRefreshTime) :
    versionsReadDir c now st = (st, .ok (st.m.map (fun p => ⟨p.1, 0⟩)), []) := by
  rw [versionsReadDir, condRefresh_noop c now st h]

/-- The full describe path of condRefresh: when the window has elapsed, both
searches succeed, at least one permanode was found, and the batch describe
succeeds, the refresh commits the recomputed name map, the children filtered
by the literal root names, and the new timestamp. -/
theorem condRefresh_describe_ok (c : Client) (now : Time) (st : VersionsDirState)
    (R I : WithAttrResponse) (D : DescribeResponse)
    (httl : ¬ st.lastQuery > now - versionsRefreshTime)
    (hr : c.withAttr rootReq = .ok R)
    (hi : c.withAttr importReq = .ok I)
    (hne : (R.withAttr.map (fun wi => wi.permanode) ++
        I.withAttr.map (fun wi => wi.permanode)).isEmpty = false)
    (hd : c.describe ⟨R.withAttr.map (fun wi => wi.permanode) ++
        I.withAttr.map (fun wi => wi.permanode), 1, none⟩ = .ok D) :
    condRefresh c now st =
      ({ lastQuery := now
         m := importersLoop D I.withAttr (rootsLoop D R.withAttr [] []).1
         children := some ((st.children.getD []).filter
           (fun p => (rootsLoop D R.withAttr [] []).2.contains p.1))
         nextId := st.nextId }, none,
       [.qWithAttr rootReq, .qWithAttr importReq,
        .qDescribe ⟨R.withAttr.map (fun wi => wi.permanode) ++
          I.withAttr.map (fun wi => wi.permanode), 1, none⟩]) := by
  rcases hrl : rootsLoop D R.withAttr [] [] with ⟨m1, cr⟩
  rw [condRefresh, if_neg httl]
  simp only [hr, hi]
  simp only [hne, hd, hrl]
  simp

/-! ## Fixtures for the roots directory -/

/-- A collaborator whose attribute searches succeed with no results. -/
def emptySearchClient : Client :=
  { describe := fun _ => .error "unused"
    getClaims := fun _ _ => .error "unused"
    withAttr := fun _ => .ok ⟨[]⟩ }

/-- camliRoot search result: the single permanode `sha1-r`. -/
def rootSearchRes : WithAttrResponse := ⟨[⟨⟨"sha1-r"⟩⟩]⟩

/-- camliImportRoot search result: the single permanode `sha1-i`. -/
def impSearchRes : WithAttrResponse := ⟨[⟨⟨"sha1-i"⟩⟩]⟩

/-- Batch describe resolving the root (named "newroot") and the import root
(named "x"). -/
def rootsMeta : DescribeResponse := ⟨[
  ("sha1-r", ⟨⟨"sha1-r"⟩, "permanode", some ⟨[("camliRoot", ["newroot"])]⟩, ⟨0⟩⟩),
  ("sha1-i", ⟨⟨"sha1-i"⟩, "permanode", some ⟨[("camliImportRoot", ["x"])]⟩, ⟨0⟩⟩)]⟩

/-- Healthy roots-world collaborator. -/
def rootsClient : Client :=
  { describe := fun _ => .ok rootsMeta
    getClaims := fun _ _ => .error "unused"
    withAttr := fun req =>
      if req.attr == "camliRoot" then .ok rootSearchRes else .ok impSearchRes }

/-- A collaborator whose searches succeed (returning `sha1-p`) but whose
batch describe fails. -/
def describeErrClient : Client :=
  { describe := fun _ => .error "boom"
    getClaims := fun _ _ => .error "unused"
    withAttr := fun _ => .ok ⟨[⟨⟨"sha1-p"⟩⟩]⟩ }

/-- The memoized node for the root "photos". -/
def photosNode : DirNode := ⟨0, ⟨"sha1-p"⟩, "photos"⟩

/-- A roots-directory state after an earlier refresh that found "photos",
with its child node memoized. -/
def photosSt : VersionsDirState :=
  ⟨0, [("photos", ⟨"sha1-p"⟩)], some [("photos", photosNode)], 1⟩

/-- The memoized node for the import root "x". -/
def impNode : DirNode := ⟨0, ⟨"sha1-i"⟩, "importer-x"⟩

/-- A roots-directory state with the importer child memoized. -/
def impSt : VersionsDirState := ⟨0, [], some [("importer-x", impNode)], 1⟩

/-! ## C1 -/

/-- C1, counterexample: with two claims where the second claim's value is
unparseable, the first ReadDir returns an I/O failure, but the children map
has already been created holding the first (partial) entry; the second
ReadDir returns that partial entry with no error and re-issues no queries —
so the population neither left the children map unset nor retried.  And with
a collaborator whose time-pinned Describe fails on the second claim, the
whole population succeeds (no I/O failure at all) with the partial entry
visible. -/
theorem roFileLikeDir_partial_commit_cex :
    (roFileLikeDirReadDir partialClient fldFix).2.1 = .error .eio ∧
    (roFileLikeDirReadDir partialClient fldFix).1.children =
      some [("5", .fileVersion fvFix)] ∧
    (roFileLikeDirReadDir partialClient
        (roFileLikeDirReadDir partialClient fldFix).1).2 =
      (.ok [⟨"5", sum64 ⟨"sha1-f"⟩⟩], []) ∧
    (roFileLikeDirReadDir describeFailClient fldFix).2.1 =
      .ok [⟨"5", sum64 ⟨"sha1-f"⟩⟩] := by
  decide

/-- C1, amended: a GetClaims failure aborts the population with an error
leaving the children map unset (that case alone is retryable).  Once the
claim loop starts, the children map is already committed: whatever the loop
returns — including an error for an unparseable claim value or an absent
described blob — the partially resolved children become the node's children
and the next populate is a silent no-op issuing no queries (no retry, partial
entries visible).  A failing time-pinned Describe inside the loop does not
abort the population: the loop stops with no error and the entries resolved
so far are kept. -/
theorem roFileLikeDir_populate_amended :
    (∀ (c : Client) (n : RoFileLikeDirState) (res : ClaimsResponse),
      n.children = none → c.getClaims n.permanode "camliContent" = .ok res →
      (roFileLikeDirPopulate c n).1.children =
        some (roFileLikeDirLoop c n.permanode res.claims []).1 ∧
      roFileLikeDirPopulate c (roFileLikeDirPopulate c n).1 =
        ((roFileLikeDirPopulate c n).1, none, [])) ∧
    (∀ (c : Client) (n : RoFileLikeDirState) (msg : String),
      n.children = none → c.getClaims n.permanode "camliContent" = .error msg →
      roFileLikeDirPopulate c n =
        (n, some "fs.roFileLikeDir: GetClaims error in ReadDir:",
         [.qClaims n.permanode "camliContent"])) ∧
    (∀ (c : Client) (pn cpn : Ref) (cl : Claim) (rest : List Claim)
        (acc : List (String × RoFileOrDir)) (msg : String),
      parseRef cl.value = some cpn →
      c.describe ⟨[cpn], 1, some cl.date⟩ = .error msg →
      roFileLikeDirLoop c pn (cl :: rest) acc =
        (acc, none, [.qDescribe ⟨[cpn], 1, some cl.date⟩])) ∧
    (∀ (c : Client) (pn : Ref) (cl : Claim) (rest : List Claim)
        (acc : List (String × RoFileOrDir)),
      parseRef cl.value = none →
      roFileLikeDirLoop c pn (cl :: rest) acc = (acc, some "invalid blobref", [])) := by
  refine ⟨?_, ?_, ?_, ?_⟩
  · intro c n res h hc
    rcases hl : roFileLikeDirLoop c n.permanode res.claims [] with ⟨m, e, qs⟩
    have hpop : roFileLikeDirPopulate c n =
        ({ n with children := some m }, e, .qClaims n.permanode "camliContent" :: qs) := by
      simp [roFileLikeDirPopulate, h, hc, hl]
    rw [hpop]
    exact ⟨rfl, by simp [roFileLikeDirPopulate]⟩
  · intro c n msg h hc
    simp [roFileLikeDirPopulate, h, hc]
  · intro c pn cpn cl rest acc msg hpr hd
    simp [roFileLikeDirLoop, hpr, hd]
  · intro c pn cl rest acc hpr
    simp [roFileLikeDirLoop, hpr]

/-- C1, witness for the amended theorem at the partial-commit fixture. -/
theorem roFileLikeDir_populate_amended_witness :
    (roFileLikeDirPopulate partialClient fldFix).1.children =
      some (roFileLikeDirLoop partialClient fldFix.permanode
        twoClaimsBadSecond.claims []).1 ∧
    roFileLikeDirPopulate partialClient (roFileLikeDirPopulate partialClient fldFix).1 =
      ((roFileLikeDirPopulate partialClient fldFix).1, none, []) :=
  roFileLikeDir_populate_amended.1 partialClient fldFix twoClaimsBadSecond rfl rfl

/-! ## C8 -/

/-- C8, counterexample: populate succeeds on a single claim with known
timestamp 5, yet the resulting version node's Attr modification time is the
process-start fallback, not the claim's timestamp — populate never stores
the claim date in the node. -/
theorem roFileVersion_mtime_not_claim_date_cex :
    (roFileLikeDirPopulate oneClaimClient fldFix).2.1 = none ∧
    (roFileLikeDirPopulate oneClaimClient fldFix).1.children =
      some [("5", .fileVersion fvFix)] ∧
    (roFileVersionAttr fvFix).mtime = serverStart ∧
    serverStart ≠ (5 : Time) := by
  decide

/-- C8, amended: Attr returns read-only permissions (plus the symlink bit),
size equal to the stored byte size with the block count derived from it,
modification time equal to the stored timestamp when set and the fixed
process-start fallback otherwise, and access time falling back through the
modification time; however populate never stores the claim's timestamp, so
every version node it creates reports the process-start fallback as both
modification and access time. -/
theorem roFileVersion_attr_amended :
    (∀ v : RoFileVersionData,
      roFileVersionAttr v =
        { inode := sum64 v.permanode
          modeDir := false
          modeSymlink := v.symLink
          perm := 0o400
          size := v.size
          blocks := if v.size > 0 then v.size.toNat / 512 + 1 else 0
          mtime := if v.mtime != 0 then v.mtime else serverStart
          atime := if v.atime != 0 then v.atime
                   else if v.mtime != 0 then v.mtime else serverStart
          ctime := serverStart
          crtime := serverStart }) ∧
    (∀ (c : Client) (n : RoFileLikeDirState), n.children = none →
      ∀ p ∈ (roFileLikeDirPopulate c n).1.children.getD [],
        ∀ v, p.2 = RoFileOrDir.fileVersion v →
          v.mtime = 0 ∧ v.atime = 0 ∧
          (roFileVersionAttr v).mtime = serverStart ∧
          (roFileVersionAttr v).atime = serverStart) := by
  constructor
  · intro v
    rfl
  · intro c n h p hp v hv
    have hmt : v.mtime = 0 ∧ v.atime = 0 := by
      cases hc : c.getClaims n.permanode "camliContent" with
      | error msg =>
        rw [(roFileLikeDir_populate_amended.2.1 c n msg h hc : _)] at hp
        rw [h] at hp
        simp at hp
      | ok res =>
        rcases hl : roFileLikeDirLoop c n.permanode res.claims [] with ⟨m, e, qs⟩
        have hpop : roFileLikeDirPopulate c n =
            ({ n with children := some m }, e,
              .qClaims n.permanode "camliContent" :: qs) := by
          simp [roFileLikeDirPopulate, h, hc, hl]
        rw [hpop] at hp
        simp only [Option.getD_some] at hp
        have := roFileLikeDirLoop_mem c n.permanode
          (fun ch => ∀ w, ch = RoFileOrDir.fileVersion w → w.mtime = 0 ∧ w.atime = 0)
          (by intro nm cont sz w hw; cases hw; exact ⟨rfl, rfl⟩)
          res.claims [] (by simp) p (by rw [hl]; exact hp)
        exact this v hv
    refine ⟨hmt.1, hmt.2, ?_, ?_⟩
    · simp [roFileVersionAttr, modTime, hmt.1]
    · simp [roFileVersionAttr, accessTime, modTime, hmt.1, hmt.2]

/-- C8, witness for the amended theorem: the populate clause instantiated
at the one-claim fixture and its single child. -/
theorem roFileVersion_attr_amended_witness :
    fvFix.mtime = 0 ∧ fvFix.atime = 0 ∧
    (roFileVersionAttr fvFix).mtime = serverStart ∧
    (roFileVersionAttr fvFix).atime = serverStart :=
  roFileVersion_attr_amended.2 oneClaimClient fldFix rfl
    ("5", RoFileOrDir.fileVersion fvFix) (by decide) fvFix rfl

/-! ## C9 -/

/-- C9: every version node created by VersionedFileDirectory.populate
carries the parent file-permanode's ref as its permanode, so all version
entries of a populated directory share one inode — the hash of the parent's
permanode, equal to the directory's own Attr inode — both in the node's
Attr and in the inode the parent's ReadDir reports. -/
theorem fileVersion_inode_shared (c : Client) (n n2 : RoFileLikeDirState)
    (e : Option String) (qs : List Query) (h : n.children = none)
    (hp : roFileLikeDirPopulate c n = (n2, e, qs)) :
    (∀ p ∈ n2.children.getD [], ∃ v, p.2 = RoFileOrDir.fileVersion v ∧
        v.permanode = n2.permanode ∧
        (roFileVersionAttr v).inode = (roFileLikeDirAttr n2).inode ∧
        direntInode p.2 = (roFileLikeDirAttr n2).inode) ∧
    (∀ ents, (roFileLikeDirReadDir c n2).2.1 = .ok ents →
        ∀ d ∈ ents, d.inode = (roFileLikeDirAttr n2).inode) := by
  cases hc : c.getClaims n.permanode "camliContent" with
  | error msg =>
    rw [roFileLikeDir_populate_amended.2.1 c n msg h hc] at hp
    cases hp
    constructor
    · intro p hpmem
      rw [h] at hpmem
      simp at hpmem
    · intro ents hents
      rw [roFileLikeDirReadDir] at hents
      rw [roFileLikeDir_populate_amended.2.1 c n msg h hc] at hents
      simp at hents
  | ok res =>
    rcases hl : roFileLikeDirLoop c n.permanode res.claims [] with ⟨m, e2, qs2⟩
    have hpop : roFileLikeDirPopulate c n =
        ({ n with children := some m }, e2,
          .qClaims n.permanode "camliContent" :: qs2) := by
      simp [roFileLikeDirPopulate, h, hc, hl]
    rw [hpop] at hp
    have hn2 : n2 = { n with children := some m } := (congrArg (fun t => t.1) hp).symm
    have hmem : ∀ p ∈ m, ∃ v, p.2 = RoFileOrDir.fileVersion v ∧
        v.permanode = n.permanode := by
      intro p hpm
      exact roFileLikeDirLoop_mem c n.permanode
        (fun ch => ∃ v, ch = RoFileOrDir.fileVersion v ∧ v.permanode = n.permanode)
        (by intro nm cont sz; exact ⟨_, rfl, rfl⟩)
        res.claims [] (by simp) p (by rw [hl]; exact hpm)
    have hfirst : ∀ p ∈ n2.children.getD [], ∃ v,
        p.2 = RoFileOrDir.fileVersion v ∧ v.permanode = n2.permanode ∧
        (roFileVersionAttr v).inode = (roFileLikeDirAttr n2).inode ∧
        direntInode p.2 = (roFileLikeDirAttr n2).inode := by
      intro p hpm
      rw [hn2] at hpm
      simp only [Option.getD_some] at hpm
      rcases hmem p hpm with ⟨v, hv, hvp⟩
      refine ⟨v, hv, ?_, ?_, ?_⟩
      · rw [hn2]; exact hvp
      · rw [hn2]
        simp [roFileVersionAttr, roFileLikeDirAttr, hvp]
      · rw [hn2, hv]
        simp [direntInode, roFileLikeDirAttr, hvp]
    refine ⟨hfirst, ?_⟩
    intro ents hents d hd
    rw [roFileLikeDirReadDir] at hents
    have hpop2 : roFileLikeDirPopulate c n2 = (n2, none, []) := by
      rw [hn2]
      simp [roFileLikeDirPopulate]
    rw [hpop2] at hents
    simp only at hents
    cases hents
    rcases List.mem_map.mp hd with ⟨p, hpm, hdp⟩
    rcases hfirst p hpm with ⟨v, hv, hvp, hvi, hvd⟩
    rw [← hdp]
    exact hvd

/-- The populated state the one-claim fixture reaches. -/
def populatedFldFix : RoFileLikeDirState :=
  ⟨⟨"sha1-f"⟩, "f", false, "", some [("5", .fileVersion fvFix)]⟩

/-- C9, witness: the shared-inode property at the one-claim fixture,
instantiated at its single version entry. -/
theorem fileVersion_inode_shared_witness :
    direntInode (RoFileOrDir.fileVersion fvFix) =
      (roFileLikeDirAttr populatedFldFix).inode := by
  have h := (fileVersion_inode_shared oneClaimClient fldFix populatedFldFix
      none [.qClaims ⟨"sha1-f"⟩ "camliContent", .qDescribe ⟨[⟨"sha1-v1"⟩], 1, some 5⟩]
      rfl (by decide)).1 ("5", RoFileOrDir.fileVersion fvFix) (by decide)
  rcases h with ⟨v, hv, hvp, hvi, hvd⟩
  exact hvd

/-! ## C4 -/

/-- C4, counterexample: a refresh whose two searches succeed with zero
results returns success but does not update the refresh timestamp, so a
second ReadDir within the one-minute window issues a second pair of
attribute-search queries — the claim's "exactly one pair per window" and
"timestamp updated exactly on successful refreshes" are false on the code. -/
theorem versions_ttl_cex :
    (versionsReadDir emptySearchClient 10000 vdFix).2.1 = .ok [] ∧
    searchCount (versionsReadDir emptySearchClient 10000 vdFix).2.2 = 2 ∧
    (versionsReadDir emptySearchClient 10000 vdFix).1.lastQuery ≠ 10000 ∧
    searchCount (versionsReadDir emptySearchClient 10030
      (versionsReadDir emptySearchClient 10000 vdFix).1).2.2 = 2 := by
  decide

/-- C4, amended: condRefresh is a no-op within one minute of the last
successful refresh that resolved at least one permanode, and the timestamp
is updated exactly on such refreshes: after a full refresh (both searches
ok, at least one result, describe ok) the refresh issues one pair of search
queries, a ReadDir within the window issues none and lists the memoized
map, and a ReadDir after the window elapses issues a second pair.
(Zero-result refreshes succeed without updating the timestamp, so they
re-query on every call.) -/
theorem condRefresh_ttl_amended (c : Client) (now : Time) (st : VersionsDirState)
    (R I : WithAttrResponse) (D : DescribeResponse)
    (httl : ¬ st.lastQuery > now - versionsRefreshTime)
    (hr : c.withAttr rootReq = .ok R)
    (hi : c.withAttr importReq = .ok I)
    (hne : (R.withAttr.map (fun wi => wi.permanode) ++
        I.withAttr.map (fun wi => wi.permanode)).isEmpty = false)
    (hd : c.describe ⟨R.withAttr.map (fun wi => wi.permanode) ++
        I.withAttr.map (fun wi => wi.permanode), 1, none⟩ = .ok D) :
    searchCount (condRefresh c now st).2.2 = 2 ∧
    (condRefresh c now st).1.lastQuery = now ∧
    (∀ now2, now > now2 - versionsRefreshTime →
      versionsReadDir c now2 (condRefresh c now st).1 =
        ((condRefresh c now st).1,
         .ok ((condRefresh c now st).1.m.map (fun p => ⟨p.1, 0⟩)), [])) ∧
    (∀ now3, ¬ now > now3 - versionsRefreshTime →
      searchCount (versionsReadDir c now3 (condRefresh c now st).1).2.2 = 2) := by
  have hfull := condRefresh_describe_ok c now st R I D httl hr hi hne hd
  have hlast : (condRefresh c now st).1.lastQuery = now := by rw [hfull]
  refine ⟨?_, hlast, ?_, ?_⟩
  · rw [hfull]
    rfl
  · intro now2 h2
    exact versionsReadDir_noop c now2 (condRefresh c now st).1 (by rw [hlast]; exact h2)
  · intro now3 h3
    have hfull3 := condRefresh_describe_ok c now3 (condRefresh c now st).1 R I D
      (by rw [hlast]; exact h3) hr hi hne hd
    rw [versionsReadDir, hfull3]
    rfl

/-- C4, witness: the amended theorem at the healthy roots world, with the
second call 30 seconds later and the third 100 seconds later. -/
theorem condRefresh_ttl_amended_witness :
    searchCount (condRefresh rootsClient 10000 vdFix).2.2 = 2 ∧
    (condRefresh rootsClient 10000 vdFix).1.lastQuery = 10000 ∧
    versionsReadDir rootsClient 10030 (condRefresh rootsClient 10000 vdFix).1 =
      ((condRefresh rootsClient 10000 vdFix).1,
       .ok ((condRefresh rootsClient 10000 vdFix).1.m.map (fun p => ⟨p.1, 0⟩)), []) ∧
    searchCount (versionsReadDir rootsClient 10100
      (condRefresh rootsClient 10000 vdFix).1).2.2 = 2 := by
  have h := condRefresh_ttl_amended rootsClient 10000 vdFix rootSearchRes impSearchRes
    rootsMeta (by decide) rfl rfl (by decide) rfl
  exact ⟨h.1, h.2.1, h.2.2.1 10030 (by decide), h.2.2.2 10100 (by decide)⟩

/-! ## C5 -/

/-- C5, counterexample: when the batch Describe fails, condRefresh returns
an I/O failure, but the prior state is not fully untouched — the
name-to-permanode map was already reset to empty before the Describe was
issued (the timestamp is preserved). -/
theorem condRefresh_describe_error_resets_map_cex :
    (condRefresh describeErrClient 10000 photosSt).2.1 = some .eio ∧
    (condRefresh describeErrClient 10000 photosSt).1.m = [] ∧
    photosSt.m ≠ [] ∧
    (condRefresh describeErrClient 10000 photosSt).1.lastQuery = photosSt.lastQuery := by
  decide

/-- C5, amended: a failure of either attribute-search query aborts the
refresh with an I/O failure leaving the whole prior state untouched; a
failure of the subsequent batch Describe aborts with an I/O failure leaving
the timestamp and the memoized children untouched (merely initializing the
children map if it was nil) and thus retryable, but the name-to-permanode
map has already been reset to empty. -/
theorem condRefresh_failure_amended :
    (∀ (c : Client) (now : Time) (st : VersionsDirState) (msg : String),
      ¬ st.lastQuery > now - versionsRefreshTime →
      c.withAttr rootReq = .error msg →
      condRefresh c now st =
        (st, some .eio, [.qWithAttr rootReq, .qWithAttr importReq])) ∧
    (∀ (c : Client) (now : Time) (st : VersionsDirState) (R : WithAttrResponse)
        (msg : String),
      ¬ st.lastQuery > now - versionsRefreshTime →
      c.withAttr rootReq = .ok R →
      c.withAttr importReq = .error msg →
      condRefresh c now st =
        (st, some .eio, [.qWithAttr rootReq, .qWithAttr importReq])) ∧
    (∀ (c : Client) (now : Time) (st : VersionsDirState) (R I : WithAttrResponse)
        (msg : String),
      ¬ st.lastQuery > now - versionsRefreshTime →
      c.withAttr rootReq = .ok R →
      c.withAttr importReq = .ok I →
      (R.withAttr.map (fun wi => wi.permanode) ++
        I.withAttr.map (fun wi => wi.permanode)).isEmpty = false →
      c.describe ⟨R.withAttr.map (fun wi => wi.permanode) ++
        I.withAttr.map (fun wi => wi.permanode), 1, none⟩ = .error msg →
      (condRefresh c now st).2.1 = some .eio ∧
      (condRefresh c now st).1.lastQuery = st.lastQuery ∧
      (condRefresh c now st).1.children = some (st.children.getD []) ∧
      (condRefresh c now st).1.m = []) := by
  refine ⟨?_, ?_, ?_⟩
  · intro c now st msg httl hre
    rw [condRefresh, if_neg httl]
    simp [hre]
  · intro c now st R msg httl hr hie
    rw [condRefresh, if_neg httl]
    simp [hr, hie]
  · intro c now st R I msg httl hr hi hne hde
    rw [condRefresh, if_neg httl]
    simp [hr, hi, hne, hde]

/-- C5, witness: the search-failure clause at the all-failing collaborator
and the describe-failure clause at the photos state. -/
theorem condRefresh_failure_amended_witness :
    condRefresh badClient 10000 vdFix =
      (vdFix, some .eio, [.qWithAttr rootReq, .qWithAttr importReq]) ∧
    (condRefresh describeErrClient 10000 photosSt).2.1 = some .eio ∧
    (condRefresh describeErrClient 10000 photosSt).1.lastQuery = photosSt.lastQuery ∧
    (condRefresh describeErrClient 10000 photosSt).1.children =
      some (photosSt.children.getD []) ∧
    (condRefresh describeErrClient 10000 photosSt).1.m = [] := by
  have h1 := condRefresh_failure_amended.1 badClient 10000 vdFix "boom"
    (by decide) rfl
  have h3 := condRefresh_failure_amended.2.2 describeErrClient 10000 photosSt
    ⟨[⟨⟨"sha1-p"⟩⟩]⟩ ⟨[⟨⟨"sha1-p"⟩⟩]⟩ "boom" (by decide) rfl rfl (by decide) rfl
  exact ⟨h1, h3.1, h3.2.1, h3.2.2.1, h3.2.2.2⟩

/-! ## C6 -/

/-- C6, counterexample: a successful refresh that finds zero permanodes
returns before the eviction loop, so the previously memoized child for
"photos" is NOT evicted from the children cache even though "photos" is no
longer among the current root names — although the listing does omit it and
Lookup still reports not-found (the name map was emptied). -/
theorem versions_eviction_cex :
    (condRefresh emptySearchClient 10000 photosSt).2.1 = none ∧
    (condRefresh emptySearchClient 10000 photosSt).1.children =
      some [("photos", photosNode)] ∧
    (versionsReadDir emptySearchClient 10000 photosSt).2.1 = .ok [] ∧
    (versionsLookup emptySearchClient 10000 photosSt "photos").2.1 =
      .error .enoent := by
  decide

/-- C6, amended: after a successful refresh that resolved at least one
permanode, every memoized child whose name is not among the currently found
root names is evicted from the children cache; in particular any name not
among the current roots is absent from the cache, and a name absent from
the refreshed name map is answered not-found by Lookup without a fresh
query.  (A zero-result successful refresh skips eviction; the stale node
stays cached but is unreachable, since the name map is emptied.) -/
theorem condRefresh_eviction_amended (c : Client) (now : Time)
    (st : VersionsDirState) (R I : WithAttrResponse) (D : DescribeResponse)
    (httl : ¬ st.lastQuery > now - versionsRefreshTime)
    (hr : c.withAttr rootReq = .ok R)
    (hi : c.withAttr importReq = .ok I)
    (hne : (R.withAttr.map (fun wi => wi.permanode) ++
        I.withAttr.map (fun wi => wi.permanode)).isEmpty = false)
    (hd : c.describe ⟨R.withAttr.map (fun wi => wi.permanode) ++
        I.withAttr.map (fun wi => wi.permanode), 1, none⟩ = .ok D) :
    (∀ p ∈ (condRefresh c now st).1.children.getD [],
      (rootsLoop D R.withAttr [] []).2.contains p.1 = true) ∧
    (∀ nm, (rootsLoop D R.withAttr [] []).2.contains nm = false →
      mapGet ((condRefresh c now st).1.children.getD []) nm = none) ∧
    (∀ nm, mapGet (condRefresh c now st).1.m nm = none →
      versionsLookup c now (condRefresh c now st).1 nm =
        ((condRefresh c now st).1, .error .enoent, [])) := by
  have hfull := condRefresh_describe_ok c now st R I D httl hr hi hne hd
  have hnoop : condRefresh c now (condRefresh c now st).1 =
      ((condRefresh c now st).1, none, []) := by
    apply condRefresh_noop
    rw [hfull]
    show now > now - versionsRefreshTime
    simp [versionsRefreshTime]
  refine ⟨?_, ?_, ?_⟩
  · intro p hp
    rw [hfull] at hp
    simp only [Option.getD_some] at hp
    exact (List.mem_filter.mp hp).2
  · intro nm hnm
    rw [hfull]
    simp only [Option.getD_some]
    exact mapGet_filter_none _ _ _ hnm
  · intro nm hnm
    rw [versionsLookup, hnoop]
    simp only [hnm]
    rfl

/-- C6, witness: the amended theorem at the healthy roots world, where the
previous root "photos" is no longer found. -/
theorem condRefresh_eviction_amended_witness :
    mapGet ((condRefresh rootsClient 10000 photosSt).1.children.getD [])
      "photos" = none ∧
    versionsLookup rootsClient 10000 (condRefresh rootsClient 10000 photosSt).1
      "photos" =
      ((condRefresh rootsClient 10000 photosSt).1, .error .enoent, []) := by
  have h := condRefresh_eviction_amended rootsClient 10000 photosSt rootSearchRes
    impSearchRes rootsMeta (by decide) rfl rfl (by decide) rfl
  exact ⟨h.2.1 "photos" (by decide), h.2.2 "photos" (by decide)⟩

/-! ## C10 -/

/-- C10: the kept-set a refresh uses for eviction is built only from
literal camliRoot names, so a memoized child carrying the sanitized
importer- naming is evicted on every full refresh even when its import root
is still present (its name is still in the refreshed map); a subsequent
Lookup then constructs, memoizes and returns a fresh node — allocated with
a new identity — rather than the previously memoized one. -/
theorem importer_children_evicted (c : Client) (now : Time)
    (st : VersionsDirState) (R I : WithAttrResponse) (D : DescribeResponse)
    (nm : String) (nod : DirNode) (br : Ref)
    (httl : ¬ st.lastQuery > now - versionsRefreshTime)
    (hr : c.withAttr rootReq = .ok R)
    (hi : c.withAttr importReq = .ok I)
    (hne : (R.withAttr.map (fun wi => wi.permanode) ++
        I.withAttr.map (fun wi => wi.permanode)).isEmpty = false)
    (hd : c.describe ⟨R.withAttr.map (fun wi => wi.permanode) ++
        I.withAttr.map (fun wi => wi.permanode), 1, none⟩ = .ok D)
    (hpre : strHasPre "importer-" nm = true)
    (hmem : mapGet (st.children.getD []) nm = some nod)
    (hker : (rootsLoop D R.withAttr [] []).2.contains nm = false)
    (hbr : mapGet (condRefresh c now st).1.m nm = some br)
    (hv : br.valid = true)
    (hid : nod.id < st.nextId) :
    mapGet ((condRefresh c now st).1.children.getD []) nm = none ∧
    (versionsLookup c now (condRefresh c now st).1 nm).2.1 =
      .ok ⟨st.nextId, br, nm⟩ ∧
    (⟨st.nextId, br, nm⟩ : DirNode) ≠ nod ∧
    mapGet ((versionsLookup c now (condRefresh c now st).1 nm).1.children.getD [])
      nm = some ⟨st.nextId, br, nm⟩ := by
  have hfull := condRefresh_describe_ok c now st R I D httl hr hi hne hd
  have hnoop : condRefresh c now (condRefresh c now st).1 =
      ((condRefresh c now st).1, none, []) := by
    apply condRefresh_noop
    rw [hfull]
    show now > now - versionsRefreshTime
    simp [versionsRefreshTime]
  have hgone : mapGet ((condRefresh c now st).1.children.getD []) nm = none := by
    rw [hfull]
    simp only [Option.getD_some]
    exact mapGet_filter_none _ _ _ hker
  have hnext : (condRefresh c now st).1.nextId = st.nextId := by rw [hfull]
  have hlook : versionsLookup c now (condRefresh c now st).1 nm =
      ({ (condRefresh c now st).1 with
          children := some (mapSet ((condRefresh c now st).1.children.getD []) nm
            ⟨st.nextId, br, nm⟩)
          nextId := st.nextId + 1 }, .ok ⟨st.nextId, br, nm⟩, []) := by
    rw [versionsLookup, hnoop]
    simp only [hbr, Option.getD_some, hv, hgone, hnext]
    rfl
  refine ⟨hgone, ?_, ?_, ?_⟩
  · rw [hlook]
  · intro heq
    have := congrArg DirNode.id heq
    simp only at this
    omega
  · rw [hlook]
    simp only [Option.getD_some]
    rw [mapGet_mapSet]
    simp

/-- C10, witness: the import root "x" is present in both refreshes; the
refresh evicts the memoized importer child anyway, and the next Lookup
memoizes a freshly allocated node. -/
theorem importer_children_evicted_witness :
    mapGet ((condRefresh rootsClient 10000 impSt).1.children.getD [])
      "importer-x" = none ∧
    (versionsLookup rootsClient 10000 (condRefresh rootsClient 10000 impSt).1
        "importer-x").2.1 = .ok ⟨1, ⟨"sha1-i"⟩, "importer-x"⟩ ∧
    (⟨1, ⟨"sha1-i"⟩, "importer-x"⟩ : DirNode) ≠ impNode ∧
    mapGet ((versionsLookup rootsClient 10000
        (condRefresh rootsClient 10000 impSt).1 "importer-x").1.children.getD [])
      "importer-x" = some ⟨1, ⟨"sha1-i"⟩, "importer-x"⟩ :=
  importer_children_evicted rootsClient 10000 impSt rootSearchRes impSearchRes
    rootsMeta "importer-x" impNode ⟨"sha1-i"⟩ (by decide) rfl rfl (by decide) rfl
    (by decide) (by decide) (by decide) (by decide) (by decide) (by decide)

/-- C7, witness: one instance of each of the four node variants, with a
write-intent open on the file-version node. -/
theorem mutation_attempts_eperm_witness :
    mutationResult (fun _ => true) (.fileVersion fvFix) (.openFlags 1) =
      .error .eperm ∧
    mutationResult (fun _ => true) (.rootsDir vdFix) .setx = .error .eperm ∧
    mutationResult (fun _ => true) (.staticDir roDirVFix) .removex = .error .eperm ∧
    mutationResult (fun _ => true) (.versionedFileDir fldFix) (.openFlags 2) =
      .error .eperm :=
  ⟨mutation_attempts_eperm (fun _ => true) (.fileVersion fvFix) (.openFlags 1)
      (fun f h => by cases h; decide),
   mutation_attempts_eperm (fun _ => true) (.rootsDir vdFix) .setx
      (fun f h => nomatch h),
   mutation_attempts_eperm (fun _ => true) (.staticDir roDirVFix) .removex
      (fun f h => nomatch h),
   mutation_attempts_eperm (fun _ => true) (.versionedFileDir fldFix) (.openFlags 2)
      (fun f h => by cases h; decide)⟩

end Camli
